import Mathlib

/-!
Verification of the dropbox-renamer core (src/dropbox_renamer/rename_files_with_date.py)
against its natural-language specification, via a shallow embedding in Lean 4.

Modelling conventions:
* Python strings are `List Char`; only ASCII digit/whitespace classes are modelled
  (all strings reaching the regex in this program are ASCII).
* `datetime` values are modelled at day granularity by `Date` (year, month, day);
  `datetime` comparison is modelled by lexicographic comparison `dateLt`.
* `strftime "%Y%m%d"` is modelled by `formatYmd` (zero-padded, 4+2+2 digits;
  Python dates satisfy 1 <= year <= 9999 so four year digits are always produced).
* Fallible remote-store / filesystem operations carry explicit success flags in the
  remote-tree model; a `False` flag stands for "this call raises an exception"
  (resp. for `ensure_directory_exists` returning `False` after catching one).
-/

/-- Python character class `\d` of the regex in `has_date_prefix` (ASCII digits). -/
def isPyDigit (c : Char) : Bool := c.isDigit

/-- Python character class `\s` of the regex in `has_date_prefix` (ASCII whitespace). -/
def isPySpace (c : Char) : Bool :=
  c == ' ' || c == '\t' || c == '\n' || c == '\r' || c == '\x0b' || c == '\x0c'

/-- `has_date_prefix(name)` (rename_files_with_date.py lines 40-45):
`re.match` of the anchored pattern `(19|20)\d{6}` followed by `\s+` or end of string.
A match requires: first two characters are `19` or `20`, the next six characters are
digits, and character 8 (if any) is whitespace. `re.match` anchors at position 0. -/
def isDatePrefixed : List Char → Bool
  | c0 :: c1 :: c2 :: c3 :: c4 :: c5 :: c6 :: c7 :: rest =>
      ((c0 == '1' && c1 == '9') || (c0 == '2' && c1 == '0')) &&
      (isPyDigit c2 && isPyDigit c3 && isPyDigit c4 && isPyDigit c5 &&
       isPyDigit c6 && isPyDigit c7) &&
      (match rest with
       | [] => true
       | c :: _ => isPySpace c)
  | _ => false

/-- A `datetime` at day granularity. -/
structure Date where
  year : Nat
  month : Nat
  day : Nat
  deriving DecidableEq

/-- One decimal digit character (least decimal digit of `n`). -/
def digitChar (n : Nat) : Char := Char.ofNat (48 + n % 10)

/-- Two-digit zero-padded decimal rendering (strftime `%m` / `%d`). -/
def pad2 (n : Nat) : List Char := [digitChar (n / 10), digitChar n]

/-- Four-digit zero-padded decimal rendering (strftime `%Y`, years up to 9999). -/
def pad4 (n : Nat) : List Char :=
  [digitChar (n / 1000), digitChar (n / 100), digitChar (n / 10), digitChar n]

/-- `date_obj.strftime("%Y%m%d")`. -/
def formatYmd (d : Date) : List Char := pad4 d.year ++ pad2 d.month ++ pad2 d.day

/-- Python `new_name.endswith('/')`. -/
def endsWithSlash (s : List Char) : Bool :=
  match s.getLast? with
  | some c => c == '/'
  | none => false

/-- `get_renamed_path` (lines 87-122), as a function of the already-selected date:
lines 98-110 select the date from the classification-appropriate source (file:
`metadata.server_modified`; folder: `get_folder_creation_date`, or the current
clock when no client is given), and the remaining lines are this pure transform:
return the base name unchanged when it already has a date prefix, otherwise
prepend `"{date_prefix} "`, and for folders append `'/'` unless already present. -/
def getRenamedPath (d : Date) (name : List Char) (isFolder : Bool) : List Char :=
  if isDatePrefixed name then name
  else
    let newName := formatYmd d ++ (' ' :: name)
    if isFolder && !endsWithSlash newName then newName ++ ['/'] else newName


/-- `datetime` comparison `a < b` (chronological; lexicographic at day granularity). -/
def dateLt (a b : Date) : Bool :=
  decide (a.year < b.year) ||
    (decide (a.year = b.year) &&
      (decide (a.month < b.month) ||
        (decide (a.month = b.month) && decide (a.day < b.day))))

/- The remote tree handed back by the Remote Store, with explicit failure flags.

A folder carries the pages its listing returns in order (`files_list_folder`
yields the head page, `files_list_folder_continue` the rest); `listOk = false`
means the listing call for this folder raises. `mkdirOk` is the Boolean returned
by `ensure_directory_exists` for this folder's local directory. For a file,
`metaOk = false` means `files_get_metadata` raises and `downloadOk = false`
means `files_download_to_file` raises; `modified` is `server_modified`. -/
mutual
inductive DEntry : Type where
  | file : (name : List Char) → (modified : Date) →
      (metaOk : Bool) → (downloadOk : Bool) → DEntry
  | folder : (name : List Char) → (listOk : Bool) → (mkdirOk : Bool) →
      (pages : PageList) → DEntry

inductive EntryList : Type where
  | nil : EntryList
  | cons : DEntry → EntryList → EntryList

inductive PageList : Type where
  | nil : PageList
  | cons : EntryList → PageList → PageList
end

/-- Concatenation of listing pages. -/
def appendE : EntryList → EntryList → EntryList
  | EntryList.nil, b => b
  | EntryList.cons e rest, b => EntryList.cons e (appendE rest b)

/-- Flatten a page list into a single page. -/
def concatPages : PageList → EntryList
  | PageList.nil => EntryList.nil
  | PageList.cons p rest => appendE p (concatPages rest)

/-- The `server_modified` dates of the file entries of one page, in order. -/
def fileDatesE : EntryList → List Date
  | EntryList.nil => []
  | EntryList.cons (DEntry.file _ md _ _) rest => md :: fileDatesE rest
  | EntryList.cons (DEntry.folder _ _ _ _) rest => fileDatesE rest

/-- The accumulator loop of `get_folder_creation_date` (lines 54-59): scan the
entries of the first listing page, keeping the oldest `server_modified` seen so
far among file entries (strict `<`, so the first of equals is kept). -/
def oldestAux (acc : Option Date) : EntryList → Option Date
  | EntryList.nil => acc
  | EntryList.cons (DEntry.file _ md _ _) rest =>
      oldestAux
        (some (match acc with
               | none => md
               | some cur => if dateLt md cur then md else cur)) rest
  | EntryList.cons (DEntry.folder _ _ _ _) rest => oldestAux acc rest

/-- `oldest_date` computed by `get_folder_creation_date` from the first page. -/
def oldestFileDate (es : EntryList) : Option Date := oldestAux none es

/-- `get_folder_creation_date` (lines 47-85). Inputs: whether the listing call
succeeds, the first page returned by `files_list_folder` (the function performs
no pagination), the folder's optional `client_modified` metadata field, the
optional `time_created` of the shared-folder metadata, and the current clock.
Any exception (modelled by `listOk = false`) yields the current clock. -/
def getFolderCreationDate (listOk : Bool) (firstPage : EntryList)
    (clientModified sharedTimeCreated : Option Date) (now : Date) : Date :=
  if listOk then
    match oldestFileDate firstPage with
    | some d => d
    | none =>
        match clientModified with
        | some d => d
        | none =>
            match sharedTimeCreated with
            | some d => d
            | none => now
  else now

/-- `os.path.join(a, b)` for a relative second component. -/
def pjoin (a b : List Char) : List Char := a ++ ('/' :: b)

/-- The denylisted folder name of lines 165 and 185. -/
def deadName : List Char := "DEAD file".toList

/-- Observable actions of one run, in order: a successful download
(local path, remote path), a caught per-file error (lines 146-147), a skipped
denylisted folder (lines 166, 186), an `ensure_directory_exists` call with its
Boolean result (lines 30-38), and a caught folder-listing error (lines 194-195). -/
inductive Event : Type where
  | downloaded : List Char → List Char → Event
  | fileError : List Char → Event
  | skipped : List Char → Event
  | mkdirEv : List Char → Bool → Event
  | listError : List Char → Event
  deriving DecidableEq

/-- `download_and_rename_file` (lines 124-147): fetch metadata (an exception is
caught and logged), choose the local name — the original name when it already
has a date prefix, otherwise `get_renamed_path` with the file's
`server_modified` — and download (an exception is caught and logged). -/
def downloadAndRenameFile (rpath ldir name : List Char) (md : Date)
    (metaOk downloadOk : Bool) : List Event :=
  if metaOk then
    let localPath :=
      if isDatePrefixed name then pjoin ldir name
      else pjoin ldir (getRenamedPath md name false)
    if downloadOk then [Event.downloaded localPath rpath] else [Event.fileError rpath]
  else [Event.fileError rpath]

/- `process_dropbox_folder` (lines 149-195) and its two per-entry loop bodies.

`processFolder rdir ldir listOk pages`: the whole body sits in one `try`; a
listing failure is caught and logged and the call returns (only this subtree is
abandoned). Otherwise the first page is processed by the first `for` loop
(per-entry body `bodyFirst`, lines 156-172) and every continuation page by the
`while result.has_more` loop (per-entry body `bodyCont`, lines 177-192, a
verbatim copy of the first body in the source). A file entry is handed to
`download_and_rename_file`; a folder entry named `"DEAD file"` is skipped;
any other folder entry gets a local directory under its ORIGINAL name
(`ensure_directory_exists`, Boolean result discarded) and is recursed into. -/
mutual
def processFolder (rdir ldir : List Char) (listOk : Bool) :
    PageList → List Event
  | PageList.nil => if listOk then [] else [Event.listError rdir]
  | PageList.cons fp mp =>
      if listOk then processPageFirst rdir ldir fp ++ processMorePages rdir ldir mp
      else [Event.listError rdir]

def processPageFirst (rdir ldir : List Char) : EntryList → List Event
  | EntryList.nil => []
  | EntryList.cons e rest => bodyFirst rdir ldir e ++ processPageFirst rdir ldir rest

def bodyFirst (rdir ldir : List Char) : DEntry → List Event
  | DEntry.file name md metaOk downloadOk =>
      downloadAndRenameFile (pjoin rdir name) ldir name md metaOk downloadOk
  | DEntry.folder name listOk mkdirOk pages =>
      if name = deadName then [Event.skipped (pjoin rdir name)]
      else
        Event.mkdirEv (pjoin ldir name) mkdirOk ::
          processFolder (pjoin rdir name) (pjoin ldir name) listOk pages

def processMorePages (rdir ldir : List Char) : PageList → List Event
  | PageList.nil => []
  | PageList.cons p rest =>
      processPageCont rdir ldir p ++ processMorePages rdir ldir rest

def processPageCont (rdir ldir : List Char) : EntryList → List Event
  | EntryList.nil => []
  | EntryList.cons e rest => bodyCont rdir ldir e ++ processPageCont rdir ldir rest

def bodyCont (rdir ldir : List Char) : DEntry → List Event
  | DEntry.file name md metaOk downloadOk =>
      downloadAndRenameFile (pjoin rdir name) ldir name md metaOk downloadOk
  | DEntry.folder name listOk mkdirOk pages =>
      if name = deadName then [Event.skipped (pjoin rdir name)]
      else
        Event.mkdirEv (pjoin ldir name) mkdirOk ::
          processFolder (pjoin rdir name) (pjoin ldir name) listOk pages
end


/-- Python `needle in haystack` substring test. -/
def containsSub (pat : List Char) : List Char → Bool
  | [] => pat.isEmpty
  | c :: rest => pat.isPrefixOf (c :: rest) || containsSub pat rest

/-- The remainder after the first occurrence of `pat`, when `pat` occurs. -/
def afterFirstOcc (pat : List Char) : List Char → Option (List Char)
  | [] => none
  | c :: rest =>
      if pat.isPrefixOf (c :: rest) then some (List.drop pat.length (c :: rest))
      else afterFirstOcc pat rest

/-- Iterate `afterFirstOcc` to exhaustion (fuel-bounded; each step removes at
least one character for nonempty `pat`, so `s.length` steps always suffice). -/
def afterLastGo (pat : List Char) : Nat → List Char → List Char
  | 0, s => s
  | Nat.succ fuel, s =>
      match afterFirstOcc pat s with
      | none => s
      | some s2 => afterLastGo pat fuel s2

/-- Python `s.split(pat)[-1]`: the suffix after the last (left-to-right,
non-overlapping) occurrence of `pat`, or `s` itself when `pat` does not occur. -/
def afterLast (pat s : List Char) : List Char := afterLastGo pat s.length s

/-- Python `s.replace('%20', ' ')` (left-to-right, non-overlapping). -/
def decodePercent20 : List Char → List Char
  | '%' :: '2' :: '0' :: rest => ' ' :: decodePercent20 rest
  | c :: rest => c :: decodePercent20 rest
  | [] => []

/-- Python `s.rstrip('/')`. -/
def rstripSlash (s : List Char) : List Char :=
  List.reverse (List.dropWhile (fun c => c == '/') s.reverse)

/-- Python `s.split('/')` (keeping empty pieces, as `str.split` with a separator does). -/
def splitSlashGo (cur : List Char) : List Char → List (List Char)
  | [] => [cur.reverse]
  | c :: rest =>
      if c == '/' then cur.reverse :: splitSlashGo [] rest
      else splitSlashGo (c :: cur) rest

/-- Python `s.split('/')`. -/
def splitSlash (s : List Char) : List (List Char) := splitSlashGo [] s

/-- Python `'/'.join(parts)`. -/
def joinSlash : List (List Char) → List Char
  | [] => []
  | [p] => p
  | p :: rest => p ++ ('/' :: joinSlash rest)

/-- `clean_dropbox_path` (lines 254-296): strip everything up to and including a
`dropbox.com/home` URL marker when present, decode `%20`, strip trailing
slashes, ensure a leading slash, strip a leading `/All files` (10 characters),
and finally rebuild the path from its nonempty slash-separated parts (the
lowercase/uppercase variants computed on lines 288-293 are only printed, never
used). A pure, total transform: it never raises. -/
def cleanDropboxPath (path : List Char) : List Char :=
  let p1 := if containsSub ("dropbox.com/home".toList) path
            then afterLast ("dropbox.com/home".toList) path else path
  let p2 := decodePercent20 p1
  let p3 := rstripSlash p2
  let p4 := match p3 with
            | '/' :: _ => p3
            | _ => '/' :: p3
  let p5 := if ("/All files".toList).isPrefixOf p4 then List.drop 10 p4 else p4
  let parts := List.filter (fun q => !q.isEmpty) (splitSlash p5)
  if parts.isEmpty then p5 else '/' :: joinSlash parts


/-- One update step of the `oldest_date` accumulator, on the date stream. -/
def foldMinStep (o : Option Date) (md : Date) : Option Date :=
  match o with
  | none => some md
  | some cur => some (if dateLt md cur then md else cur)

/-- The `oldest_date` accumulator loop as a fold over the file-date stream. -/
def foldMin (acc : Option Date) (ds : List Date) : Option Date :=
  ds.foldl foldMinStep acc

/-- Remote tree for the folder-handling check: one remote folder `Reports`
(no date prefix) containing one file `a.pdf` last modified 2023-05-17. -/
def c4Pages : PageList :=
  PageList.cons
    (EntryList.cons
      (DEntry.folder ("Reports".toList) true true
        (PageList.cons
          (EntryList.cons (DEntry.file ("a.pdf".toList) ⟨2023, 5, 17⟩ true true)
            EntryList.nil)
          PageList.nil))
      EntryList.nil)
    PageList.nil

/-- First listing page of a folder: one file dated 2024-01-01. -/
def c8FirstPage : EntryList :=
  EntryList.cons (DEntry.file ("a.txt".toList) ⟨2024, 1, 1⟩ true true) EntryList.nil

/-- Continuation pages of the same folder: one more page with a file dated 2020-01-01. -/
def c8MorePages : PageList :=
  PageList.cons
    (EntryList.cons (DEntry.file ("b.txt".toList) ⟨2020, 1, 1⟩ true true) EntryList.nil)
    PageList.nil

theorem isPyDigit_digitChar (n : Nat) : isPyDigit (digitChar n) = true := by
  have h : n % 10 < 10 := Nat.mod_lt _ (by omega)
  unfold digitChar
  set m := n % 10 with hm
  interval_cases m <;> decide

theorem isDatePrefixed_build (y : Nat) (h1 : 1900 ≤ y) (h2 : y ≤ 2099)
    (c2 c3 c4 c5 c6 c7 : Char) (rest : List Char)
    (hc2 : isPyDigit c2 = true) (hc3 : isPyDigit c3 = true)
    (hc4 : isPyDigit c4 = true) (hc5 : isPyDigit c5 = true)
    (hc6 : isPyDigit c6 = true) (hc7 : isPyDigit c7 = true) :
    isDatePrefixed (digitChar (y / 1000) :: digitChar (y / 100) ::
      c2 :: c3 :: c4 :: c5 :: c6 :: c7 :: ' ' :: rest) = true := by
  show (((digitChar (y / 1000) == '1' && digitChar (y / 100) == '9') ||
         (digitChar (y / 1000) == '2' && digitChar (y / 100) == '0')) &&
        (isPyDigit c2 && isPyDigit c3 && isPyDigit c4 && isPyDigit c5 &&
         isPyDigit c6 && isPyDigit c7) &&
        isPySpace ' ') = true
  rw [hc2, hc3, hc4, hc5, hc6, hc7]
  rcases Nat.lt_or_ge y 2000 with hy | hy
  · have e1 : y / 1000 = 1 := by omega
    have e2 : y / 100 = 19 := by omega
    rw [e1, e2]; decide
  · have e1 : y / 1000 = 2 := by omega
    have e2 : y / 100 = 20 := by omega
    rw [e1, e2]; decide

theorem isDatePrefixed_formatYmd (d : Date) (rest : List Char)
    (h1 : 1900 ≤ d.year) (h2 : d.year ≤ 2099) :
    isDatePrefixed (formatYmd d ++ (' ' :: rest)) = true := by
  obtain ⟨y, m, dd⟩ := d
  simp only [formatYmd, pad4, pad2, List.cons_append, List.nil_append]
  exact isDatePrefixed_build y h1 h2 _ _ _ _ _ _ rest
    (isPyDigit_digitChar _) (isPyDigit_digitChar _) (isPyDigit_digitChar _)
    (isPyDigit_digitChar _) (isPyDigit_digitChar _) (isPyDigit_digitChar _)

/-- The early-return branch of `get_renamed_path` (lines 94-96). -/
theorem getRenamedPath_of_prefixed (d : Date) (s : List Char) (f : Bool)
    (h : isDatePrefixed s = true) : getRenamedPath d s f = s := by
  simp [getRenamedPath, h]

/-- The renaming branch of `get_renamed_path` (lines 112-119). -/
theorem getRenamedPath_not_prefixed (d : Date) (s : List Char) (f : Bool)
    (h : isDatePrefixed s = false) :
    getRenamedPath d s f =
      (if f && !endsWithSlash (formatYmd d ++ (' ' :: s))
       then (formatYmd d ++ (' ' :: s)) ++ ['/']
       else formatYmd d ++ (' ' :: s)) := by
  simp only [getRenamedPath, h]
  simp

/-- C1 (amended): the naming rule is idempotent for every base name and both
classifications, PROVIDED the date's year lies in 1900..2099, because then the
rule's output starts with a `(19|20)`-dated prefix that the conformance check
recognizes; the second application may even use any other date and
classification. -/
theorem namingRuleIdempotent (d d2 : Date) (name : List Char) (f f2 : Bool)
    (h1 : 1900 ≤ d.year) (h2 : d.year ≤ 2099) :
    getRenamedPath d2 (getRenamedPath d name f) f2 = getRenamedPath d name f := by
  rcases Bool.eq_false_or_eq_true (isDatePrefixed name) with hp | hp
  · rw [getRenamedPath_of_prefixed d name f hp, getRenamedPath_of_prefixed d2 name f2 hp]
  · rw [getRenamedPath_not_prefixed d name f hp]
    by_cases hc : (f && !endsWithSlash (formatYmd d ++ (' ' :: name))) = true
    · rw [if_pos hc]
      apply getRenamedPath_of_prefixed
      rw [List.append_assoc, List.cons_append]
      exact isDatePrefixed_formatYmd d (name ++ ['/']) h1 h2
    · rw [if_neg hc]
      apply getRenamedPath_of_prefixed
      exact isDatePrefixed_formatYmd d name h1 h2

/-- C1 (counterexample to the claim as stated): for the date source 2150-01-01
(a legal `datetime`), the rule's output `"21500101 report"` does not match the
`(19|20)`-anchored conformance pattern, so a second application prepends a
second prefix: the rule is NOT idempotent for every date source. -/
theorem namingRuleNotIdempotentAt2150 :
    getRenamedPath ⟨2150, 1, 1⟩ (getRenamedPath ⟨2150, 1, 1⟩ ("report".toList) false) false
      ≠ getRenamedPath ⟨2150, 1, 1⟩ ("report".toList) false := by decide

/-- C1 witness: idempotence at a concrete input with a 1900..2099 year. -/
theorem namingRuleIdempotentWitness :
    getRenamedPath ⟨2025, 2, 3⟩ (getRenamedPath ⟨2024, 1, 1⟩ ("invoice.pdf".toList) true) false
      = getRenamedPath ⟨2024, 1, 1⟩ ("invoice.pdf".toList) true :=
  namingRuleIdempotent ⟨2024, 1, 1⟩ ⟨2025, 2, 3⟩ ("invoice.pdf".toList) true false
    (by decide) (by decide)

/-- C2: every base name matching the anchored pattern `(19|20)\d{6}` followed by
whitespace or end of string is returned unchanged by the naming rule, for both
the file and the folder classification and for every date source. The test is
`isDatePrefixed`, which only ever inspects the initial characters of the name
(a strict anchored prefix test, per its definition). -/
theorem conformantNameUnchanged (d : Date) (name : List Char)
    (h : isDatePrefixed name = true) :
    getRenamedPath d name false = name ∧ getRenamedPath d name true = name :=
  ⟨getRenamedPath_of_prefixed d name false h, getRenamedPath_of_prefixed d name true h⟩

/-- C2 witness: `"20240101 invoice.pdf"` is conformant and returned unchanged. -/
theorem conformantNameUnchangedWitness :
    isDatePrefixed ("20240101 invoice.pdf".toList) = true ∧
    (getRenamedPath ⟨2027, 9, 9⟩ ("20240101 invoice.pdf".toList) false
        = ("20240101 invoice.pdf".toList) ∧
     getRenamedPath ⟨2027, 9, 9⟩ ("20240101 invoice.pdf".toList) true
        = ("20240101 invoice.pdf".toList)) :=
  ⟨by decide, conformantNameUnchanged ⟨2027, 9, 9⟩ _ (by decide)⟩

/-- Appending `"{date} "` in front does not change whether a name ends in `'/'`. -/
theorem endsWithSlash_append_space (a name : List Char) :
    endsWithSlash (a ++ (' ' :: name)) = endsWithSlash name := by
  cases name with
  | nil =>
      simp only [endsWithSlash, List.getLast?_append_cons]
      rfl
  | cons c cs =>
      simp only [endsWithSlash, List.getLast?_append_cons, List.getLast?_cons_cons]

/-- C3 (counterexample to the claim as stated): for the non-conformant FOLDER
name `"Reports"`, the result is NOT just `"{date} {name}"`: the code appends a
trailing `'/'` to folder names (lines 116-117). -/
theorem folderRenameAppendsSlashCex :
    getRenamedPath ⟨2024, 1, 1⟩ ("Reports".toList) true
      ≠ formatYmd ⟨2024, 1, 1⟩ ++ (' ' :: ("Reports".toList)) := by decide

/-- C3 (amended): for every non-conformant base name the rule returns the
8-digit date, exactly one space, then the original name, with nothing else
inserted; for the folder classification a single trailing `'/'` is additionally
APPENDED unless the name already ends in `'/'`. -/
theorem nonConformantRenameShape (d : Date) (name : List Char)
    (h : isDatePrefixed name = false) :
    getRenamedPath d name false = formatYmd d ++ (' ' :: name) ∧
    getRenamedPath d name true =
      (if endsWithSlash name then formatYmd d ++ (' ' :: name)
       else (formatYmd d ++ (' ' :: name)) ++ ['/']) := by
  constructor
  · rw [getRenamedPath_not_prefixed d name false h]
    simp
  · rw [getRenamedPath_not_prefixed d name true h]
    simp only [Bool.true_and, endsWithSlash_append_space]
    cases hE : endsWithSlash name with
    | true => simp
    | false => simp

/-- C3 witness: the amended shape at the concrete file name `"invoice.pdf"`
with last-modified 2023-05-17. -/
theorem nonConformantRenameShapeWitness :
    isDatePrefixed ("invoice.pdf".toList) = false ∧
    (getRenamedPath ⟨2023, 5, 17⟩ ("invoice.pdf".toList) false
        = formatYmd ⟨2023, 5, 17⟩ ++ (' ' :: ("invoice.pdf".toList)) ∧
     getRenamedPath ⟨2023, 5, 17⟩ ("invoice.pdf".toList) true
        = (if endsWithSlash ("invoice.pdf".toList)
           then formatYmd ⟨2023, 5, 17⟩ ++ (' ' :: ("invoice.pdf".toList))
           else (formatYmd ⟨2023, 5, 17⟩ ++ (' ' :: ("invoice.pdf".toList))) ++ ['/'])) :=
  ⟨by decide, nonConformantRenameShape ⟨2023, 5, 17⟩ _ (by decide)⟩

/-- C4 (code divergence, evaluated): on a remote folder `Reports` containing
`a.pdf` (modified 2023-05-17), the traversal creates the local directory under
the ORIGINAL name `out/Reports` and recurses into it; the section-4.1 naming
rule would have produced the destination name `20230517 Reports/`, and the
local directory the claim requires differs from the one created. -/
theorem folderKeepsOriginalLocalName :
    processFolder ("/Customers".toList) ("out".toList) true c4Pages
        = [Event.mkdirEv ("out/Reports".toList) true,
           Event.downloaded ("out/Reports/20230517 a.pdf".toList)
             ("/Customers/Reports/a.pdf".toList)] ∧
    getRenamedPath ⟨2023, 5, 17⟩ ("Reports".toList) true = ("20230517 Reports/".toList) ∧
    ("out/Reports".toList)
        ≠ pjoin ("out".toList) (getRenamedPath ⟨2023, 5, 17⟩ ("Reports".toList) true) :=
  ⟨by decide, by decide, by decide⟩

/-- C5: a folder entry named `"DEAD file"` produces exactly one logged skip
event — no local directory creation, no recursion, no download, no error —
under the per-entry logic of the first-page loop and of the continuation-page
loop alike, whatever its flags and contents. -/
theorem deadFolderSkipped (rd ld : List Char) (lOk mkOk : Bool) (pages : PageList) :
    bodyFirst rd ld (DEntry.folder deadName lOk mkOk pages)
        = [Event.skipped (pjoin rd deadName)] ∧
    bodyCont rd ld (DEntry.folder deadName lOk mkOk pages)
        = [Event.skipped (pjoin rd deadName)] :=
  ⟨rfl, rfl⟩

/-- The first-page entry loop is a homomorphism for page concatenation. -/
theorem processPageFirst_append (rd ld : List Char) :
    ∀ (a b : EntryList),
      processPageFirst rd ld (appendE a b)
        = processPageFirst rd ld a ++ processPageFirst rd ld b
  | EntryList.nil, b => by
      simp [appendE, processPageFirst]
  | EntryList.cons e rest, b => by
      simp only [appendE, processPageFirst]
      rw [processPageFirst_append rd ld rest b, List.append_assoc]

/-- C7: per-entry errors are contained and listing errors abort only the
subtree. (1) The first-page loop processes the entries around ANY entry `e`
unchanged, whatever trace `e` contributes, so a failing entry never aborts its
siblings; (2) a metadata-fetch failure yields exactly one logged per-file
error; (3) a download failure yields exactly one logged per-file error;
(4) a folder whose listing call fails contributes exactly one logged listing
error — its subtree is abandoned, and by (1) the enclosing loop continues. -/
theorem perEntryErrorIsolation (rd ld : List Char) (pre post : EntryList) (e : DEntry) :
    processPageFirst rd ld (appendE pre (EntryList.cons e post))
        = processPageFirst rd ld pre ++ (bodyFirst rd ld e ++ processPageFirst rd ld post) ∧
    (∀ (n : List Char) (md : Date) (dOk : Bool),
        bodyFirst rd ld (DEntry.file n md false dOk) = [Event.fileError (pjoin rd n)]) ∧
    (∀ (n : List Char) (md : Date),
        bodyFirst rd ld (DEntry.file n md true false) = [Event.fileError (pjoin rd n)]) ∧
    (∀ (pages : PageList), processFolder rd ld false pages = [Event.listError rd]) := by
  refine ⟨?_, ?_, ?_, ?_⟩
  · rw [processPageFirst_append rd ld pre (EntryList.cons e post)]
    simp [processPageFirst]
  · intro n md dOk
    rfl
  · intro n md
    rfl
  · intro pages
    cases pages with
    | nil => rfl
    | cons p r => rfl

/-- The two per-entry loop bodies (lines 156-172 and 177-192) are identical. -/
theorem bodyFirst_eq_bodyCont (rd ld : List Char) :
    ∀ e, bodyFirst rd ld e = bodyCont rd ld e
  | DEntry.file _ _ _ _ => rfl
  | DEntry.folder _ _ _ _ => rfl

/-- The continuation-page entry loop agrees with the first-page entry loop. -/
theorem processPageCont_eq (rd ld : List Char) :
    ∀ es, processPageCont rd ld es = processPageFirst rd ld es
  | EntryList.nil => rfl
  | EntryList.cons e r => by
      simp only [processPageCont, processPageFirst]
      rw [bodyFirst_eq_bodyCont, processPageCont_eq rd ld r]

/-- Processing the continuation pages equals processing their concatenation. -/
theorem processMorePages_join (rd ld : List Char) :
    ∀ mp, processMorePages rd ld mp = processPageFirst rd ld (concatPages mp)
  | PageList.nil => rfl
  | PageList.cons p rest => by
      simp only [processMorePages, concatPages]
      rw [processPageCont_eq, processMorePages_join rd ld rest, processPageFirst_append]

/-- C6: a folder whose listing spans several cursor pages produces exactly the
trace it would produce had the whole listing been returned as one page: no
entry is dropped or duplicated across page boundaries, and the per-entry logic
applied on continuation pages is the same as on the first page. -/
theorem paginationEquivalence (rd ld : List Char) (fp : EntryList) (mp : PageList) :
    processFolder rd ld true (PageList.cons fp mp)
      = processFolder rd ld true
          (PageList.cons (appendE fp (concatPages mp)) PageList.nil) := by
  simp [processFolder, processMorePages_join, processPageFirst_append,
    processMorePages, processPageFirst]

/-- C10: for a non-denylisted folder entry whose local directory creation FAILS
(`ensure_directory_exists` returns `false`), both per-entry loop bodies still
recurse into the remote folder with the never-created local path as base: the
Boolean result is recorded and otherwise ignored at both call sites. -/
theorem mkdirResultIgnored (rd ld name : List Char) (lOk : Bool) (pages : PageList)
    (h : name ≠ deadName) :
    bodyFirst rd ld (DEntry.folder name lOk false pages)
        = Event.mkdirEv (pjoin ld name) false ::
            processFolder (pjoin rd name) (pjoin ld name) lOk pages ∧
    bodyCont rd ld (DEntry.folder name lOk false pages)
        = Event.mkdirEv (pjoin ld name) false ::
            processFolder (pjoin rd name) (pjoin ld name) lOk pages := by
  constructor <;> simp [bodyFirst, bodyCont, h]

/-- C10 witness: concrete folder `Reports` with failing directory creation. -/
theorem mkdirResultIgnoredWitness :
    ("Reports".toList ≠ deadName) ∧
    (bodyFirst ("/r".toList) ("out".toList)
          (DEntry.folder ("Reports".toList) true false PageList.nil)
        = Event.mkdirEv (pjoin ("out".toList) ("Reports".toList)) false ::
            processFolder (pjoin ("/r".toList) ("Reports".toList))
              (pjoin ("out".toList) ("Reports".toList)) true PageList.nil ∧
     bodyCont ("/r".toList) ("out".toList)
          (DEntry.folder ("Reports".toList) true false PageList.nil)
        = Event.mkdirEv (pjoin ("out".toList) ("Reports".toList)) false ::
            processFolder (pjoin ("/r".toList) ("Reports".toList))
              (pjoin ("out".toList) ("Reports".toList)) true PageList.nil) :=
  ⟨by decide,
   mkdirResultIgnored ("/r".toList) ("out".toList) ("Reports".toList) true PageList.nil
     (by decide)⟩

/-- `dateLt` decides strict chronological order. -/
theorem dateLt_iff (a b : Date) :
    dateLt a b = true ↔
      (a.year < b.year ∨ (a.year = b.year ∧
        (a.month < b.month ∨ (a.month = b.month ∧ a.day < b.day)))) := by
  simp [dateLt]

theorem dateLt_irrefl (a : Date) : dateLt a a = false := by
  cases h : dateLt a a with
  | false => rfl
  | true => exact absurd ((dateLt_iff a a).mp h) (by omega)

theorem dateLt_trans {a b c : Date} (h1 : dateLt a b = true)
    (h2 : dateLt b c = true) : dateLt a c = true := by
  rw [dateLt_iff] at h1 h2 ⊢
  omega

theorem dateLt_ge_lt {c m r : Date} (h1 : dateLt c m = false)
    (h2 : dateLt c r = true) : dateLt m r = true := by
  have h1t : ¬(dateLt c m = true) := by simp [h1]
  rw [dateLt_iff] at h1t h2 ⊢
  omega

/-- The accumulator fold always yields some date, a member of the stream or the
seed, and nothing in the stream or seed is strictly older than it. -/
theorem foldMin_spec (ds : List Date) :
    ∀ m : Date, ∃ r, foldMin (some m) ds = some r ∧
      (r = m ∨ r ∈ ds) ∧ dateLt m r = false ∧ ∀ c ∈ ds, dateLt c r = false := by
  induction ds with
  | nil =>
      intro m
      exact ⟨m, rfl, Or.inl rfl, dateLt_irrefl m, by simp⟩
  | cons d tl ih =>
      intro m
      cases hdm : dateLt d m with
      | true =>
          obtain ⟨r, hr, hmem, hle, hall⟩ := ih d
          refine ⟨r, ?_, ?_, ?_, ?_⟩
          · simpa [foldMin, foldMinStep, hdm] using hr
          · rcases hmem with h | h
            · exact Or.inr (by simp [h])
            · exact Or.inr (List.mem_cons_of_mem _ h)
          · cases hmr : dateLt m r with
            | false => rfl
            | true => exact absurd (dateLt_trans hdm hmr) (by simp [hle])
          · intro c hc
            rcases List.mem_cons.mp hc with h | h
            · rw [h]; exact hle
            · exact hall c h
      | false =>
          obtain ⟨r, hr, hmem, hle, hall⟩ := ih m
          refine ⟨r, ?_, ?_, hle, ?_⟩
          · simpa [foldMin, foldMinStep, hdm] using hr
          · rcases hmem with h | h
            · exact Or.inl h
            · exact Or.inr (List.mem_cons_of_mem _ h)
          · intro c hc
            rcases List.mem_cons.mp hc with h | h
            · rw [h]
              cases hdr : dateLt d r with
              | false => rfl
              | true => exact absurd (dateLt_ge_lt hdm hdr) (by simp [hle])
            · exact hall c h

/-- The source's entry-scanning loop equals the fold over the file-date stream. -/
theorem oldestAux_eq_foldMin :
    ∀ (es : EntryList) (acc : Option Date),
      oldestAux acc es = foldMin acc (fileDatesE es)
  | EntryList.nil, acc => rfl
  | EntryList.cons (DEntry.file n md a b) rest, acc => by
      simp only [oldestAux, fileDatesE]
      rw [oldestAux_eq_foldMin rest]
      cases acc with
      | none => simp [foldMin, foldMinStep]
      | some cur => simp [foldMin, foldMinStep]
  | EntryList.cons (DEntry.folder n x y p) rest, acc => by
      simp only [oldestAux, fileDatesE]
      exact oldestAux_eq_foldMin rest acc

/-- C8 (amended): with a successful listing, the folder date is the earliest
`server_modified` among the file entries OF THE FIRST LISTING PAGE (it is one
of them and none is strictly older); when that page has no file entries, the
fallback chain is the folder's `client_modified` metadata field, then the
shared-folder `time_created`, then the current clock. -/
theorem folderDateFirstPagePolicy (fp : EntryList) (cm st : Option Date) (now : Date) :
    (fileDatesE fp ≠ [] →
       getFolderCreationDate true fp cm st now ∈ fileDatesE fp ∧
       ∀ c ∈ fileDatesE fp,
         dateLt c (getFolderCreationDate true fp cm st now) = false) ∧
    (fileDatesE fp = [] →
       getFolderCreationDate true fp cm st now
         = (match cm with
            | some x => x
            | none =>
                match st with
                | some y => y
                | none => now)) := by
  have hb : oldestFileDate fp = foldMin none (fileDatesE fp) :=
    oldestAux_eq_foldMin fp none
  constructor
  · intro hne
    obtain ⟨d0, ds0, hds⟩ : ∃ d0 ds0, fileDatesE fp = d0 :: ds0 := by
      cases h : fileDatesE fp with
      | nil => exact absurd h hne
      | cons x xs => exact ⟨x, xs, rfl⟩
    obtain ⟨r, hr, hmem, hle, hall⟩ := foldMin_spec ds0 d0
    have hofd : oldestFileDate fp = some r := by
      rw [hb, hds]
      simpa [foldMin, foldMinStep] using hr
    have hg : getFolderCreationDate true fp cm st now = r := by
      simp [getFolderCreationDate, hofd]
    rw [hg, hds]
    constructor
    · rcases hmem with h | h
      · simp [h]
      · exact List.mem_cons_of_mem _ h
    · intro c hc
      rcases List.mem_cons.mp hc with h | h
      · rw [h]; exact hle
      · exact hall c h
  · intro hnil
    have hofd : oldestFileDate fp = none := by rw [hb, hnil]; rfl
    simp [getFolderCreationDate, hofd]

/-- C8 (counterexample to the claim as stated): for a folder whose listing
spans two pages — `a.txt` of 2024-01-01 on page one, `b.txt` of 2020-01-01 on
page two — the code returns 2024-01-01 (it never paginates inside
`get_folder_creation_date`), although the earliest last-modified among ALL the
folder's direct file children is 2020-01-01. -/
theorem folderDateIgnoresLaterPagesCex :
    getFolderCreationDate true c8FirstPage none none ⟨2026, 1, 1⟩ = ⟨2024, 1, 1⟩ ∧
    fileDatesE (appendE c8FirstPage (concatPages c8MorePages))
        = [⟨2024, 1, 1⟩, ⟨2020, 1, 1⟩] ∧
    dateLt ⟨2020, 1, 1⟩ ⟨2024, 1, 1⟩ = true ∧
    getFolderCreationDate true c8FirstPage none none ⟨2026, 1, 1⟩ ≠ ⟨2020, 1, 1⟩ :=
  ⟨by decide, by decide, by decide, by decide⟩

/-- C8 witness: the amended minimality property at a concrete first page. -/
theorem folderDateFirstPagePolicyWitness :
    (fileDatesE c8FirstPage ≠ []) ∧
    (getFolderCreationDate true c8FirstPage none none ⟨2026, 1, 1⟩
        ∈ fileDatesE c8FirstPage ∧
     ∀ c ∈ fileDatesE c8FirstPage,
       dateLt c (getFolderCreationDate true c8FirstPage none none ⟨2026, 1, 1⟩)
         = false) :=
  ⟨by decide, (folderDateFirstPagePolicy c8FirstPage none none ⟨2026, 1, 1⟩).1 (by decide)⟩

/-- C9: path normalization is a pure, total string transform; it maps the full
Dropbox URL `"https://www.dropbox.com/home/All files/Customers%20Files"` to
`"/Customers Files"`, and a path already in normal form passes through
unchanged. -/
theorem cleanDropboxPathSpec :
    cleanDropboxPath ("https://www.dropbox.com/home/All files/Customers%20Files".toList)
        = ("/Customers Files".toList) ∧
    cleanDropboxPath ("/Customers Files".toList) = ("/Customers Files".toList) :=
  ⟨by decide, by decide⟩
